import Mathlib

/-!
Verification development for the IMC Prosperity 3 trading engine
(quoting and statistical-arbitrage decision engine).

The Python sources are shallowly embedded here:
  * `round1Run`     embeds `src/round_1.py` `Trader.run` (decoded memory is
    threaded explicitly; the jsonpickle (de)serialization is out of scope).
  * `round3Run`     embeds `src/round_3.py` `Trader.run` (first `Trader` class).
  * `round2Run`     embeds `src/tutorial/round_2.py` `Trader.run`, split into
    the two sequential synthetic-group blocks `picnic1Block`/`picnic2Block`
    exactly as they appear in the source; the per-product results dictionary
    is flattened into one order list (each order carries its product symbol,
    so the per-product lists are recovered by filtering on the symbol).
  * `kelpSigma`     embeds the volatility expression of
    `src/tutorial/test.py` line 84.

Prices and volumes are integers as in the simulator's data model; mid-prices,
EMA fair values and rolling statistics are rationals (the Python floats carry
exact dyadic values in all concrete runs considered here, and no claim under
study depends on float rounding).  `statistics.pstdev` / `statistics.stdev`
return square roots, which are irrational in general; every embedding that
needs them is parameterized by the square-root routine `sq : ℚ → ℚ` applied
to the (exactly computed) population / sample variance.  Claims are proved
for arbitrary `sq` (or for any `sq` with `sq 0 = 0`, which holds for any
square root), so they hold in particular for the real one.

Python's `int()` truncates toward zero; it is embedded as `pyint`.
-/

namespace IMC

/-- Truncation toward zero, the semantics of Python's `int()` on a number. -/
def pyint (x : ℚ) : ℤ := if 0 ≤ x then ⌊x⌋ else ⌈x⌉

/-- Rounding to the nearest integer with ties rounding down (the convention
named by the spec for quote targets); used only to compare against `pyint`. -/
def roundHalfDown (x : ℚ) : ℤ := ⌈x - 1/2⌉

/-- Arithmetic mean of a list, `statistics.mean` (0 on the empty list, which
the sources never reach without a prior population gate). -/
def listMean (l : List ℚ) : ℚ := l.sum / l.length

/-- Population variance `mean((x-mean)^2)`; `statistics.pstdev` is its square
root. -/
def pvariance (l : List ℚ) : ℚ :=
  ((l.map (fun x => (x - listMean l) ^ 2)).sum) / l.length

/-- Sample variance (denominator `n-1`); `statistics.stdev` is its square
root. -/
def svariance (l : List ℚ) : ℚ :=
  ((l.map (fun x => (x - listMean l) ^ 2)).sum) / ((l.length : ℚ) - 1)

/-- A bounded FIFO window of observations, the embedding of
`collections.deque(maxlen=capacity)` as used for `squid_roll`,
`basket_diff_history` and `basket2_diff_history`. -/
structure Window where
  capacity : ℕ
  data : List ℚ
  deriving DecidableEq

/-- A fresh empty window, `deque(maxlen=c)`. -/
def Window.empty (c : ℕ) : Window := ⟨c, []⟩

/-- Appending to a bounded deque: the new value goes to the back and the
front (oldest) elements are dropped as soon as the capacity is exceeded. -/
def Window.push (w : Window) (x : ℚ) : Window :=
  ⟨w.capacity, (w.data ++ [x]).drop ((w.data.length + 1) - w.capacity)⟩

/-- Pushing a whole list of observations in order. -/
def Window.pushAll (w : Window) (xs : List ℚ) : Window :=
  xs.foldl Window.push w

/-- One side of an order book: a finite map price → resting volume, embedded
as an association list (dict keys are unique; the embeddings below only ever
select the entry of maximal/minimal price).  Bid volumes are positive, ask
volumes are negative, as in the simulator's data model. -/
structure OrderDepth where
  buy_orders : List (ℤ × ℤ)
  sell_orders : List (ℤ × ℤ)
  deriving DecidableEq

/-- An emitted order intent `Order(symbol, price, quantity)`; positive
quantity buys, negative sells. -/
structure Order where
  symbol : String
  price : ℤ
  quantity : ℤ
  deriving DecidableEq

/-- The per-tick input snapshot (`TradingState`): order books and positions
per product, both association lists standing for Python dicts (unique keys,
iteration in list order). -/
structure TradingState where
  order_depths : List (String × OrderDepth)
  position : List (String × ℤ)
  deriving DecidableEq

/-- Best bid, `max(depth.buy_orders.items())`: the entry of maximal price
(`none` when the side is empty, where the source uses `(None, 0)`). -/
def bestBid (l : List (ℤ × ℤ)) : Option (ℤ × ℤ) :=
  l.foldl (fun acc pq =>
    match acc with
    | none => some pq
    | some b => if b.1 < pq.1 then some pq else some b) none

/-- Best ask, `min(depth.sell_orders.items())`: the entry of minimal price. -/
def bestAsk (l : List (ℤ × ℤ)) : Option (ℤ × ℤ) :=
  l.foldl (fun acc pq =>
    match acc with
    | none => some pq
    | some b => if pq.1 < b.1 then some pq else some b) none

/-- Position of a product, `state.position.get(prod, 0)`. -/
def posOf (state : TradingState) (prod : String) : ℤ :=
  (state.position.lookup prod).getD 0

/-- Position limits of `round_1.py`, `self.LIMITS.get(prod, 0)`. -/
def round1Limit (prod : String) : ℤ :=
  if prod = "RAINFOREST_RESIN" ∨ prod = "KELP" ∨ prod = "SQUID_INK" then 50
  else 0

/-- EMA smoothing factor `RESIN_ALPHA = 0.1`. -/
def RESIN_ALPHA : ℚ := 1 / 10

/-- Base quoting edge `RESIN_EDGE = 1`. -/
def RESIN_EDGE : ℚ := 1

/-- Passive clip size `PASSIVE_QTY = 12`. -/
def PASSIVE_QTY : ℤ := 12

/-- Inventory skew coefficient `INV_SKEW = 0.03`. -/
def INV_SKEW : ℚ := 3 / 100

/-- Squid rolling-window length `SQUID_WINDOW = 100`. -/
def SQUID_WINDOW : ℕ := 100

/-- Squid reversion trigger `SQUID_SPREAD_THRESHOLD = 2.5`. -/
def SQUID_SPREAD_THRESHOLD : ℚ := 5 / 2

/-- Squid reversion clip `SQUID_TRADE_SIZE = 5`. -/
def SQUID_TRADE_SIZE : ℤ := 5

/-- The decoded `traderData` memory of `round_1.py`: the resin EMA fair value
and the squid mid-price rolling window, each absent until first
`setdefault`. -/
structure Round1Mem where
  fv_resin : Option ℚ
  squid_roll : Option Window
  deriving DecidableEq

/-- Resin EMA update `fv = RESIN_ALPHA * mid + (1 - RESIN_ALPHA) * fv_prev`
with `fv_prev = mem.setdefault("fv_resin", mid)`. -/
def resinFv (mem : Round1Mem) (mid : ℚ) : ℚ :=
  RESIN_ALPHA * mid + (1 - RESIN_ALPHA) * (mem.fv_resin.getD mid)

/-- Inventory skew `INV_SKEW * (pos / lim) * RESIN_EDGE * 2`. -/
def resinSkew (pos lim : ℤ) : ℚ :=
  INV_SKEW * ((pos : ℚ) / (lim : ℚ)) * RESIN_EDGE * 2

/-- One iteration of the product loop of `round_1.py` `Trader.run`.  Returns
`none` for the `KeyError` the source raises when the `SQUID_INK` branch
indexes a missing `KELP` book; otherwise `some (entry, mem)` where `entry`
is the `results[prod]` value (`none` when the loop body hit `continue`
without recording one). -/
def round1Product (state : TradingState) (mem : Round1Mem) (prod : String)
    (depth : OrderDepth) : Option (Option (List Order) × Round1Mem) :=
  match bestBid depth.buy_orders, bestAsk depth.sell_orders with
  | some (bid_px, bid_qty), some (ask_px, ask_qty) =>
    let mid : ℚ := ((bid_px : ℚ) + (ask_px : ℚ)) / 2
    let pos : ℤ := posOf state prod
    let lim : ℤ := round1Limit prod
    if prod = "RAINFOREST_RESIN" then
      let fv := resinFv mem mid
      let mem1 : Round1Mem := { mem with fv_resin := some fv }
      let skew := resinSkew pos lim
      let bid_target := pyint (fv - RESIN_EDGE - skew)
      let ask_target := pyint (fv + RESIN_EDGE - skew)
      let crossBuy : List Order :=
        if ask_px < bid_target ∧ pos < lim then
          let qty := min (-ask_qty) (lim - pos)
          if 0 < qty then [⟨prod, ask_px, qty⟩] else []
        else []
      let crossSell : List Order :=
        if ask_target < bid_px ∧ -lim < pos then
          let qty := min bid_qty (lim + pos)
          if 0 < qty then [⟨prod, bid_px, -qty⟩] else []
        else []
      let passiveBid : List Order :=
        if 0 < lim - pos then
          [⟨prod, bid_target, min PASSIVE_QTY (lim - pos)⟩]
        else []
      let passiveAsk : List Order :=
        if 0 < lim + pos then
          [⟨prod, ask_target, -(min PASSIVE_QTY (lim + pos))⟩]
        else []
      some (some (crossBuy ++ crossSell ++ passiveBid ++ passiveAsk), mem1)
    else if prod = "KELP" then
      some (none, mem)
    else if prod = "SQUID_INK" then
      match state.order_depths.lookup "KELP" with
      | none => none
      | some kelp_depth =>
        if kelp_depth.buy_orders = [] ∨ kelp_depth.sell_orders = [] then
          some (none, mem)
        else
          let roll := mem.squid_roll.getD (Window.empty SQUID_WINDOW)
          let roll1 := roll.push mid
          let mem1 : Round1Mem := { mem with squid_roll := some roll1 }
          if roll1.data.length < SQUID_WINDOW then
            some (none, mem1)
          else
            let mean_price := listMean roll1.data
            let deviation := mid - mean_price
            let orders : List Order :=
              if SQUID_SPREAD_THRESHOLD < deviation ∧ -lim < pos then
                [⟨prod, bid_px, -(min SQUID_TRADE_SIZE (lim + pos))⟩]
              else if deviation < -SQUID_SPREAD_THRESHOLD ∧ pos < lim then
                [⟨prod, ask_px, min SQUID_TRADE_SIZE (lim - pos)⟩]
              else []
            some (some orders, mem1)
    else
      some (some [], mem)
  | _, _ => some (none, mem)

/-- The product loop of `round_1.py` `Trader.run`, threading the memory and
collecting the `results` entries in iteration order. -/
def round1Loop (state : TradingState) :
    List (String × OrderDepth) → Round1Mem →
    Option (List (String × List Order) × Round1Mem)
  | [], mem => some ([], mem)
  | (prod, depth) :: rest, mem =>
    match round1Product state mem prod depth with
    | none => none
    | some (entry, mem1) =>
      match round1Loop state rest mem1 with
      | none => none
      | some (res, memF) =>
        some ((match entry with
               | none => res
               | some os => (prod, os) :: res), memF)

/-- The embedding of `round_1.py` `Trader.run`: from a decoded memory and a
market snapshot to the results dictionary and the re-encoded memory
(`none` when the source would raise). -/
def round1Run (state : TradingState) (mem : Round1Mem) :
    Option (List (String × List Order) × Round1Mem) :=
  round1Loop state state.order_depths mem

/-- Volatility multiplier `VOL_MULTIPLIER = 1.5` of `round_3.py`. -/
def VOL_MULTIPLIER : ℚ := 3 / 2

/-- Rolling window length `WINDOW = 100` of `round_3.py`. -/
def ROUND3_WINDOW : ℕ := 100

/-- Strike prices `STRIKE_PRICES` of `round_3.py`, in dict order. -/
def strikes : List (String × ℤ) :=
  [("VOLCANIC_ROCK_VOUCHER_9500", 9500),
   ("VOLCANIC_ROCK_VOUCHER_9750", 9750),
   ("VOLCANIC_ROCK_VOUCHER_10000", 10000),
   ("VOLCANIC_ROCK_VOUCHER_10250", 10250),
   ("VOLCANIC_ROCK_VOUCHER_10500", 10500)]

/-- The decoded `traderData` memory of `round_3.py`: just the rock mid-price
history list (`rock_prices`), absent before the first `setdefault`. -/
structure Round3Mem where
  rock_prices : Option (List ℚ)
  deriving DecidableEq

/-- Rock volatility of `round_3.py` line 55:
`stats.pstdev(rock_price_hist) if len(rock_price_hist) > 1 else 0`, with the
square root of the population variance supplied by the routine `sq`. -/
def rockVolatility (sq : ℚ → ℚ) (hist : List ℚ) : ℚ :=
  if 1 < hist.length then sq (pvariance hist) else 0

/-- Voucher fair value of `round_3.py` line 64:
`fair_value = max(0, avg_price - strike)`. -/
def voucherFair (avg : ℚ) (strike : ℤ) : ℚ := max 0 (avg - (strike : ℚ))

/-- One iteration of the voucher loop of `round_3.py` `Trader.run`: the
orders generated for one voucher given the rock average price and
volatility. -/
def voucherOrders (state : TradingState) (avg vol : ℚ)
    (voucher : String) (strike : ℤ) : List Order :=
  match state.order_depths.lookup voucher with
  | none => []
  | some vd =>
    let fair := voucherFair avg strike
    let threshold := VOL_MULTIPLIER * vol
    let pos := posOf state voucher
    let lim : ℤ := 200
    let buys : List Order :=
      match bestAsk vd.sell_orders with
      | some (v_ask, v_ask_qty) =>
        if (v_ask : ℚ) < fair - threshold ∧ pos < lim then
          let buy_qty := min (-v_ask_qty) (lim - pos)
          if 0 < buy_qty then [⟨voucher, v_ask, buy_qty⟩] else []
        else []
      | none => []
    let sells : List Order :=
      match bestBid vd.buy_orders with
      | some (v_bid, v_bid_qty) =>
        if fair + threshold < (v_bid : ℚ) ∧ -lim < pos then
          let sell_qty := min v_bid_qty (lim + pos)
          if 0 < sell_qty then [⟨voucher, v_bid, -sell_qty⟩] else []
        else []
      | none => []
    buys ++ sells

/-- The embedding of `round_3.py` `Trader.run` (the voucher-arbitrage
trader), parameterized by the square-root routine `sq` used by
`stats.pstdev`. -/
def round3Run (sq : ℚ → ℚ) (state : TradingState) (mem : Round3Mem) :
    List (String × List Order) × Round3Mem :=
  let hist0 := mem.rock_prices.getD []
  match state.order_depths.lookup "VOLCANIC_ROCK" with
  | none => ([], ⟨some hist0⟩)
  | some rock_depth =>
    match bestBid rock_depth.buy_orders, bestAsk rock_depth.sell_orders with
    | some (bid_px, _), some (ask_px, _) =>
      let mid : ℚ := ((bid_px : ℚ) + (ask_px : ℚ)) / 2
      let hist1 := hist0 ++ [mid]
      let hist := if ROUND3_WINDOW < hist1.length then hist1.drop 1 else hist1
      let avg_price := listMean hist
      let volatility := rockVolatility sq hist
      let results := strikes.foldl (fun acc vs =>
        let orders := voucherOrders state avg_price volatility vs.1 vs.2
        if orders = [] then acc else acc ++ [(vs.1, orders)]) []
      (results, ⟨some hist⟩)
    | _, _ => ([], ⟨some hist0⟩)

/-- Diff-history window length `DIFF_WINDOW = 40` of `tutorial/round_2.py`. -/
def DIFF_WINDOW : ℕ := 40

/-- Sigma multiplier `SIGMA_MULTIPLIER = 1.5` of `tutorial/round_2.py`. -/
def SIGMA_MULTIPLIER : ℚ := 3 / 2

/-- Basket-1 clip `BASKET_TRADE_SIZE = 2` of `tutorial/round_2.py`. -/
def BASKET_TRADE_SIZE : ℤ := 2

/-- Minimum resting volume `MIN_LIQUIDITY = 10` of `tutorial/round_2.py`. -/
def MIN_LIQUIDITY : ℤ := 10

/-- Basket-2 diff-history window length `DIFF_WINDOW_2 = 50`. -/
def DIFF_WINDOW_2 : ℕ := 50

/-- Basket-2 sigma multiplier `SIGMA_MULTIPLIER_2 = 2.0`. -/
def SIGMA_MULTIPLIER_2 : ℚ := 2

/-- Basket-2 clip `BASKET2_TRADE_SIZE = 1`. -/
def BASKET2_TRADE_SIZE : ℤ := 1

/-- The decoded `traderData` memory of `tutorial/round_2.py`: the two
synthetic-group diff histories. -/
structure Round2Mem where
  basket_diff_history : Option Window
  basket2_diff_history : Option Window
  deriving DecidableEq

/-- The PICNIC_BASKET1 synthetic-group block of `tutorial/round_2.py`
`Trader.run` (basket = 6 CROISSANTS + 3 JAMS + 1 DJEMBES): returns the
updated diff history and the orders this group contributes to `results`.
Note the source compares the (negative) resting ask volumes directly against
`MIN_LIQUIDITY = +10` in both branches that buy at an ask, which is embedded
verbatim. -/
def picnic1Block (sq : ℚ → ℚ) (state : TradingState) (h1 : Window) :
    Window × List Order :=
  match state.order_depths.lookup "PICNIC_BASKET1",
        state.order_depths.lookup "CROISSANTS",
        state.order_depths.lookup "JAMS",
        state.order_depths.lookup "DJEMBES" with
  | some bd, some cd, some jd, some dd =>
    match bestBid bd.buy_orders, bestAsk bd.sell_orders,
          bestBid cd.buy_orders, bestAsk cd.sell_orders,
          bestBid jd.buy_orders, bestAsk jd.sell_orders,
          bestBid dd.buy_orders, bestAsk dd.sell_orders with
    | some (b_bid, b_bid_vol), some (b_ask, b_ask_vol),
      some (c_bid, c_bid_vol), some (c_ask, c_ask_vol),
      some (j_bid, j_bid_vol), some (j_ask, j_ask_vol),
      some (d_bid, d_bid_vol), some (d_ask, d_ask_vol) =>
      let basket_mid : ℚ := ((b_bid : ℚ) + (b_ask : ℚ)) / 2
      let croissant_mid : ℚ := ((c_bid : ℚ) + (c_ask : ℚ)) / 2
      let jams_mid : ℚ := ((j_bid : ℚ) + (j_ask : ℚ)) / 2
      let djembes_mid : ℚ := ((d_bid : ℚ) + (d_ask : ℚ)) / 2
      let comp_price := 6 * croissant_mid + 3 * jams_mid + 1 * djembes_mid
      let diff := comp_price - basket_mid
      let h1a := h1.push diff
      if DIFF_WINDOW ≤ h1a.data.length then
        let avg_diff := listMean h1a.data
        let sigma_diff := sq (pvariance h1a.data)
        let dynamic_threshold := avg_diff + SIGMA_MULTIPLIER * sigma_diff
        let pos_basket := posOf state "PICNIC_BASKET1"
        let pos_c := posOf state "CROISSANTS"
        let pos_j := posOf state "JAMS"
        let pos_d := posOf state "DJEMBES"
        let orders : List Order :=
          if dynamic_threshold < diff then
            (if pos_basket < 60 ∧ MIN_LIQUIDITY ≤ b_ask_vol then
              [⟨"PICNIC_BASKET1", b_ask, BASKET_TRADE_SIZE⟩] else []) ++
            (if -250 < pos_c ∧ MIN_LIQUIDITY ≤ c_bid_vol then
              [⟨"CROISSANTS", c_bid, -6⟩] else []) ++
            (if -350 < pos_j ∧ MIN_LIQUIDITY ≤ j_bid_vol then
              [⟨"JAMS", j_bid, -3⟩] else []) ++
            (if -60 < pos_d ∧ MIN_LIQUIDITY ≤ d_bid_vol then
              [⟨"DJEMBES", d_bid, -1⟩] else [])
          else if diff < -dynamic_threshold then
            (if -60 < pos_basket ∧ MIN_LIQUIDITY ≤ b_bid_vol then
              [⟨"PICNIC_BASKET1", b_bid, -BASKET_TRADE_SIZE⟩] else []) ++
            (if pos_c < 250 ∧ MIN_LIQUIDITY ≤ c_ask_vol then
              [⟨"CROISSANTS", c_ask, 6⟩] else []) ++
            (if pos_j < 350 ∧ MIN_LIQUIDITY ≤ j_ask_vol then
              [⟨"JAMS", j_ask, 3⟩] else []) ++
            (if pos_d < 60 ∧ MIN_LIQUIDITY ≤ d_ask_vol then
              [⟨"DJEMBES", d_ask, 1⟩] else [])
          else []
        (h1a, orders)
      else (h1a, [])
    | _, _, _, _, _, _, _, _ => (h1, [])
  | _, _, _, _ => (h1, [])

/-- The PICNIC_BASKET2 synthetic-group block of `tutorial/round_2.py`
`Trader.run` (basket2 = 4 CROISSANTS + 2 JAMS).  Here the source gates the
ask-side legs with `vol <= -MIN_LIQUIDITY` and additionally tests the price
for Python truthiness (non-zero), embedded verbatim. -/
def picnic2Block (sq : ℚ → ℚ) (state : TradingState) (h2 : Window) :
    Window × List Order :=
  match state.order_depths.lookup "PICNIC_BASKET2",
        state.order_depths.lookup "CROISSANTS",
        state.order_depths.lookup "JAMS" with
  | some bd, some cd, some jd =>
    match bestBid bd.buy_orders, bestAsk bd.sell_orders,
          bestBid cd.buy_orders, bestAsk cd.sell_orders,
          bestBid jd.buy_orders, bestAsk jd.sell_orders with
    | some (b2_bid, b2_bid_vol), some (b2_ask, b2_ask_vol),
      some (c_bid, c_bid_vol), some (c_ask, c_ask_vol),
      some (j_bid, j_bid_vol), some (j_ask, j_ask_vol) =>
      let basket2_mid : ℚ := ((b2_bid : ℚ) + (b2_ask : ℚ)) / 2
      let cro_mid : ℚ := ((c_bid : ℚ) + (c_ask : ℚ)) / 2
      let jams_mid : ℚ := ((j_bid : ℚ) + (j_ask : ℚ)) / 2
      let comp_price_2 := 4 * cro_mid + 2 * jams_mid
      let diff_2 := comp_price_2 - basket2_mid
      let h2a := h2.push diff_2
      if DIFF_WINDOW_2 ≤ h2a.data.length then
        let avg_diff_2 := listMean h2a.data
        let sigma_diff_2 := sq (pvariance h2a.data)
        let threshold_2 := avg_diff_2 + SIGMA_MULTIPLIER_2 * sigma_diff_2
        let pos_b2 := posOf state "PICNIC_BASKET2"
        let pos_c := posOf state "CROISSANTS"
        let pos_j := posOf state "JAMS"
        let orders : List Order :=
          if threshold_2 < diff_2 then
            (if pos_b2 < 100 ∧ b2_ask ≠ 0 ∧ b2_ask_vol ≤ -MIN_LIQUIDITY then
              [⟨"PICNIC_BASKET2", b2_ask, BASKET2_TRADE_SIZE⟩] else []) ++
            (if -250 < pos_c ∧ c_bid ≠ 0 ∧ MIN_LIQUIDITY ≤ c_bid_vol then
              [⟨"CROISSANTS", c_bid, -4⟩] else []) ++
            (if -350 < pos_j ∧ j_bid ≠ 0 ∧ MIN_LIQUIDITY ≤ j_bid_vol then
              [⟨"JAMS", j_bid, -2⟩] else [])
          else if diff_2 < -threshold_2 then
            (if -100 < pos_b2 ∧ b2_bid ≠ 0 ∧ MIN_LIQUIDITY ≤ b2_bid_vol then
              [⟨"PICNIC_BASKET2", b2_bid, -BASKET2_TRADE_SIZE⟩] else []) ++
            (if pos_c < 250 ∧ c_ask ≠ 0 ∧ c_ask_vol ≤ -MIN_LIQUIDITY then
              [⟨"CROISSANTS", c_ask, 4⟩] else []) ++
            (if pos_j < 350 ∧ j_ask ≠ 0 ∧ j_ask_vol ≤ -MIN_LIQUIDITY then
              [⟨"JAMS", j_ask, 2⟩] else [])
          else []
        (h2a, orders)
      else (h2a, [])
    | _, _, _, _, _, _ => (h2, [])
  | _, _, _ => (h2, [])

/-- The embedding of `tutorial/round_2.py` `Trader.run`: the two
synthetic-group blocks run in sequence on the shared state; the per-product
`results` lists are flattened into one order list (each order carries its
product symbol). -/
def round2Run (sq : ℚ → ℚ) (state : TradingState) (mem : Round2Mem) :
    List Order × Round2Mem :=
  let h1 := mem.basket_diff_history.getD (Window.empty DIFF_WINDOW)
  let h2 := mem.basket2_diff_history.getD (Window.empty DIFF_WINDOW_2)
  let r1 := picnic1Block sq state h1
  let r2 := picnic2Block sq state h2
  (r1.2 ++ r2.2, ⟨some r1.1, some r2.1⟩)

/-- The KELP volatility of `src/tutorial/test.py` line 84:
`sigma = stats.stdev(roll) if len(roll) > 10 else 1` — the sample (not
population) standard deviation, with constant fallback 1 (not 0). -/
def kelpSigma (sq : ℚ → ℚ) (roll : List ℚ) : ℚ :=
  if 10 < roll.length then sq (svariance roll) else 1

/-- A validated engine configuration (spec section 3, ProductConfig). -/
structure EngineConfig where
  position_limit : ℤ
  alpha : ℚ
  window : ℤ
  deriving DecidableEq

/-- Modelled from the spec: the parameterized engine constructor is not part
of `src/` — `grid_search.py` instantiates `trader_cls(**params)` from an
external algorithm file (`my_test.py`, absent from the repository), and the
in-tree `Trader` classes carry only hard-coded class constants.  Per spec
section 7, configuration errors (non-positive position limit, alpha outside
(0,1], negative window length) are fatal at construction time: the
constructor returns `none` (refuses to start) instead of deferring undefined
behavior to runtime. -/
def mkEngineConfig (limit : ℤ) (alpha : ℚ) (window : ℤ) :
    Option EngineConfig :=
  if 0 < limit ∧ (0 < alpha ∧ alpha ≤ 1) ∧ 0 ≤ window then
    some ⟨limit, alpha, window⟩
  else none

/-- Failing input for C3. -/
def c3State : TradingState :=
  ⟨[("PICNIC_BASKET1", ⟨[(104, 12)], [(106, -9)]⟩),
    ("CROISSANTS", ⟨[(9, 15)], [(11, -20)]⟩),
    ("JAMS", ⟨[(9, 15)], [(11, -20)]⟩),
    ("DJEMBES", ⟨[(9, 15)], [(11, -20)]⟩)], []⟩

/-- The pre-tick basket-1 diff history for the C3 failing input. -/
def c3Window : Window := ⟨40, 0 :: List.replicate 39 (-5)⟩


/-- Counterexample input for C1: short position at the limit (`-50`), a
crossed book (best bid 110, best ask 100 with 100 lots resting), an empty
memory.  The engine sizes the spread-cross buy by the full headroom
(100 lots) and then also posts the passive 12-lot bid. -/
def c1State : TradingState :=
  ⟨[("RAINFOREST_RESIN", ⟨[(110, 1)], [(100, -100)]⟩)],
   [("RAINFOREST_RESIN", -50)]⟩

/-- The order list `round_1.py` emits for `c1State` (computed in
`c1_counterexample`): a 100-lot cross buy plus a 12-lot passive bid. -/
def c1Orders : List Order :=
  [⟨"RAINFOREST_RESIN", 100, 100⟩, ⟨"RAINFOREST_RESIN", 104, 12⟩]

/-- Witness input for C1/C6: a plain two-sided resin book, flat position. -/
def c1WState : TradingState :=
  ⟨[("RAINFOREST_RESIN", ⟨[(99, 5)], [(101, -5)]⟩)], []⟩

/-- Counterexample input for C4: second tick with stored fair value 100 and
mid 108, so the updated fair value is 100.8 and the quote targets fall at
fractional offsets 99.8 / 101.8. -/
def c4State : TradingState :=
  ⟨[("RAINFOREST_RESIN", ⟨[(101, 5)], [(115, -5)]⟩)], []⟩


/-- Counterexample input for C8: a two-sided VOLCANIC_ROCK book (mid 9001,
so every voucher fair value is 0 and, with a single observation, the
volatility is 0 without consulting the square-root routine) and a
VOLCANIC_ROCK_VOUCHER_9500 book with a resting bid of 10 lots at 5 and an
EMPTY ask side. -/
def c8State3 : TradingState :=
  ⟨[("VOLCANIC_ROCK", ⟨[(9000, 10)], [(9002, -10)]⟩),
    ("VOLCANIC_ROCK_VOUCHER_9500", ⟨[(5, 10)], []⟩)], []⟩

theorem Window.push_capacity (w : Window) (x : ℚ) :
    (w.push x).capacity = w.capacity := rfl

theorem Window.pushAll_capacity (w : Window) (xs : List ℚ) :
    (w.pushAll xs).capacity = w.capacity := by
  induction xs generalizing w with
  | nil => rfl
  | cons x xs ih => simpa [Window.pushAll] using ih (w.push x)

theorem Window.push_data (w : Window) (x : ℚ) :
    (w.push x).data = (w.data ++ [x]).drop ((w.data.length + 1) - w.capacity) :=
  rfl

theorem Window.push_length (w : Window) (x : ℚ) :
    (w.push x).data.length = min (w.data.length + 1) w.capacity := by
  simp only [Window.push, List.length_drop, List.length_append,
    List.length_singleton]
  omega

/-- Content of a window after pushing a list into it: the concatenated stream
with everything but the newest `capacity` elements dropped from the front. -/
theorem Window.pushAll_data (c : ℕ) (xs : List ℚ) : ∀ (l : List ℚ),
    l.length ≤ c →
    (Window.pushAll ⟨c, l⟩ xs).data =
      (l ++ xs).drop ((l.length + xs.length) - c) := by
  induction xs with
  | nil =>
    intro l hl
    have h0 : l.length - c = 0 := by omega
    simp [Window.pushAll, h0]
  | cons x xs ih =>
    intro l hl
    have hstep : Window.pushAll ⟨c, l⟩ (x :: xs) =
        Window.pushAll ⟨c, (l ++ [x]).drop ((l.length + 1) - c)⟩ xs := rfl
    rw [hstep]
    have hassoc : (l ++ [x]) ++ xs = l ++ x :: xs := by simp
    by_cases hlen : l.length + 1 ≤ c
    · have h0 : (l.length + 1) - c = 0 := by omega
      rw [h0, List.drop_zero, ih (l ++ [x]) (by simpa using hlen)]
      have hidx : (l ++ [x]).length + xs.length - c =
          l.length + (x :: xs).length - c := by
        simp only [List.length_append, List.length_singleton, List.length_cons,
          List.length_nil]
        omega
      rw [hidx, hassoc]
    · have hc : l.length = c := by omega
      have h1 : (l.length + 1) - c = 1 := by omega
      rw [h1]
      have hlen1 : ((l ++ [x]).drop 1).length ≤ c := by
        simp only [List.length_drop, List.length_append, List.length_singleton,
          List.length_cons, List.length_nil]
        omega
      rw [ih _ hlen1]
      have hdrop : ((l ++ [x]) ++ xs).drop 1 = (l ++ [x]).drop 1 ++ xs :=
        List.drop_append_of_le_length (by simp)
      rw [← hdrop, List.drop_drop]
      have hlen2 : ((l ++ [x]).drop 1).length = c := by
        simp only [List.length_drop, List.length_append, List.length_singleton,
          List.length_cons, List.length_nil]
        omega
      rw [hlen2]
      have hidx : 1 + (c + xs.length - c) = l.length + (x :: xs).length - c := by
        simp only [List.length_cons, List.length_nil]
        omega
      rw [hidx, hassoc]

/-- C9: a `RollingWindow` of capacity `c` holds, after `c + k` pushes, exactly
`min c (c + k)` elements, namely the most recent `c` pushed values in
insertion order (so eviction always removed the oldest observation first). -/
theorem c9_window_bounded (c k : ℕ) (xs : List ℚ) (h : xs.length = c + k) :
    ((Window.empty c).pushAll xs).data.length = min c (c + k) ∧
    ((Window.empty c).pushAll xs).data = xs.drop k := by
  have hdata : ((Window.empty c).pushAll xs).data = xs.drop k := by
    rw [Window.empty, Window.pushAll_data c xs [] (by simp)]
    simp [h]
  refine ⟨?_, hdata⟩
  rw [hdata]
  simp [h]

/-- Witness for C9 at capacity 2 and three pushes. -/
theorem c9_window_bounded_witness :
    ((Window.empty 2).pushAll [1, 2, 3]).data.length = min 2 (2 + 1) ∧
    ((Window.empty 2).pushAll [1, 2, 3]).data = [(1 : ℚ), 2, 3].drop 1 :=
  c9_window_bounded 2 1 [1, 2, 3] (by decide)

theorem pvariance_nil : pvariance [] = 0 := by
  simp [pvariance]

theorem pvariance_singleton (x : ℚ) : pvariance [x] = 0 := by
  simp [pvariance, listMean]

/-- C5 (amended): the rock volatility of `round_3.py` is the square root of
the population variance (`sqrt(mean((x-mean)^2))`) and evaluates to 0
whenever the history holds at most one observation; but the KELP sigma of
`tutorial/test.py` line 84 — also a rolling-window standard deviation used
by the engine — is the sample standard deviation with constant fallback 1
(not 0) whenever the window holds at most ten observations, so the original
universally quantified claim fails (see `c5_counterexample`). -/
theorem c5_amended (sq : ℚ → ℚ) (hist roll : List ℚ) (hsq : sq 0 = 0) :
    rockVolatility sq hist = sq (pvariance hist) ∧
    (hist.length ≤ 1 → rockVolatility sq hist = 0) ∧
    (roll.length ≤ 10 → kelpSigma sq roll = 1) := by
  refine ⟨?_, ?_, ?_⟩
  · unfold rockVolatility
    split_ifs with h
    · rfl
    · have h0 : pvariance hist = 0 := by
        rcases hist with _ | ⟨x, _ | ⟨y, t⟩⟩
        · exact pvariance_nil
        · exact pvariance_singleton x
        · simp at h
      rw [h0, hsq]
  · intro hlen
    unfold rockVolatility
    rw [if_neg (by omega)]
  · intro hlen
    unfold kelpSigma
    rw [if_neg (by omega)]

/-- Witness for the amended C5 at a one-element history. -/
theorem c5_amended_witness :
    rockVolatility (fun q => q) [3] = (fun q => (q : ℚ)) (pvariance [3]) ∧
    ([(3 : ℚ)].length ≤ 1 → rockVolatility (fun q => q) [3] = 0) ∧
    ([(3 : ℚ)].length ≤ 10 → kelpSigma (fun q => q) [3] = 1) :=
  c5_amended (fun q => q) [3] [3] rfl

/-- C5 counterexample: the `tutorial/test.py` KELP sigma evaluates to 1,
not 0, on a population of size one (the square-root routine is never
consulted on that branch, so any instance shows it). -/
theorem c5_counterexample :
    kelpSigma (fun q => q) [100] = 1 ∧ (1 : ℚ) ≠ 0 := by
  constructor
  · rfl
  · norm_num

/-- C7 (spec-modelled): constructing an engine with an invalid
configuration fails exactly at construction time — `mkEngineConfig`
returns `none` precisely when the position limit is non-positive, alpha
lies outside (0,1], or the window length is negative. -/
theorem c7_config_validation (limit : ℤ) (alpha : ℚ) (window : ℤ) :
    mkEngineConfig limit alpha window = none ↔
      limit ≤ 0 ∨ ¬(0 < alpha ∧ alpha ≤ 1) ∨ window < 0 := by
  unfold mkEngineConfig
  by_cases h : 0 < limit ∧ (0 < alpha ∧ alpha ≤ 1) ∧ 0 ≤ window
  · rw [if_pos h]
    obtain ⟨h1, h2, h3⟩ := h
    constructor
    · intro hc
      exact absurd hc (by simp)
    · intro hc
      exfalso
      rcases hc with hc | hc | hc
      · omega
      · exact hc h2
      · omega
  · rw [if_neg h]
    constructor
    · intro _
      by_contra hc
      push_neg at hc
      obtain ⟨hc1, hc2, hc3⟩ := hc
      exact h ⟨by omega, hc2, by omega⟩
    · intro _
      rfl

/-- C10: the fair value used by the voucher-arbitrage comparisons of
`round_3.py` is `max(0, mean(rock mid-price history) - strike)`: it is
never negative, it is exactly 0 whenever the rock average is at or below
the strike, and consequently (for any nonnegative volatility) a buy order
can then only be emitted against an ask quoted at a negative price. -/
theorem c10_voucher_fair (avg : ℚ) (strike : ℤ) :
    0 ≤ voucherFair avg strike ∧
    (avg ≤ (strike : ℚ) → voucherFair avg strike = 0) ∧
    (∀ (state : TradingState) (vol : ℚ) (voucher : String), 0 ≤ vol →
      avg ≤ (strike : ℚ) →
      ∀ o ∈ voucherOrders state avg vol voucher strike,
        0 < o.quantity → o.price < 0) := by
  have hnn : 0 ≤ voucherFair avg strike := le_max_left 0 _
  have hzero : avg ≤ (strike : ℚ) → voucherFair avg strike = 0 := by
    intro hle
    unfold voucherFair
    rw [max_eq_left (by linarith)]
  refine ⟨hnn, hzero, ?_⟩
  intro state vol voucher hvol hle o ho hq
  unfold voucherOrders at ho
  rcases hL : state.order_depths.lookup voucher with _ | vd
  · rw [hL] at ho
    simp at ho
  · rw [hL] at ho
    simp only [List.mem_append] at ho
    rcases ho with ho | ho
    · rcases hA : bestAsk vd.sell_orders with _ | ⟨va, vaq⟩
      · rw [hA] at ho
        simp at ho
      · rw [hA] at ho
        dsimp only at ho
        split_ifs at ho with hcond hqty
        · simp at ho
          have hprice : (va : ℚ) < voucherFair avg strike - VOL_MULTIPLIER * vol :=
            hcond.1
          rw [hzero hle] at hprice
          have hth : 0 ≤ VOL_MULTIPLIER * vol := by
            have : (0 : ℚ) ≤ 3 / 2 := by norm_num
            exact mul_nonneg (by rw [VOL_MULTIPLIER]; norm_num) hvol
          have : (va : ℚ) < 0 := by linarith
          have hva : va < 0 := by exact_mod_cast this
          rw [ho]
          exact hva
        · simp at ho
        · simp at ho
    · rcases hB : bestBid vd.buy_orders with _ | ⟨vb, vbq⟩
      · rw [hB] at ho
        simp at ho
      · rw [hB] at ho
        dsimp only at ho
        split_ifs at ho with hcond hqty
        · simp at ho
          rw [ho] at hq
          simp at hq
          omega
        · simp at ho
        · simp at ho



/-- Witness for C10 at a concrete voucher book with a negative ask. -/
theorem c10_voucher_fair_witness :
    0 ≤ voucherFair 2 5 ∧ ((⟨"V", -5, 20⟩ : Order).price < 0) :=
  ⟨(c10_voucher_fair 2 5).1,
   (c10_voucher_fair 2 5).2.2 ⟨[("V", ⟨[], [(-5, -20)]⟩)], []⟩ 0 "V" le_rfl
     (by norm_num) ⟨"V", -5, 20⟩
     (by simp [voucherOrders, voucherFair, VOL_MULTIPLIER, posOf, bestAsk,
           bestBid, List.lookup])
     (by norm_num)⟩

/-- C2: warm-up gating of the synthetic-arbitrage groups of
`tutorial/round_2.py` — whenever the diff history returned for the tick
(the history including the observation pushed this tick) holds fewer than
`DIFF_WINDOW` (respectively `DIFF_WINDOW_2`) observations, the group emits
no order on that tick, regardless of the magnitude of the raw diff. -/
theorem c2_warmup_gate (sq : ℚ → ℚ) (state : TradingState) (h1 h2 : Window) :
    ((picnic1Block sq state h1).1.data.length < DIFF_WINDOW →
      (picnic1Block sq state h1).2 = []) ∧
    ((picnic2Block sq state h2).1.data.length < DIFF_WINDOW_2 →
      (picnic2Block sq state h2).2 = []) := by
  constructor
  · intro hlen
    rcases hblk : picnic1Block sq state h1 with ⟨w, os⟩
    rw [hblk] at hlen
    dsimp only at hlen ⊢
    unfold picnic1Block at hblk
    split at hblk
    · split at hblk
      · simp only at hblk
        split at hblk
        · injection hblk with hw hos
          subst hw
          exact absurd hlen (by omega)
        · injection hblk with hw hos
          exact hos.symm
      · injection hblk with hw hos
        exact hos.symm
    · injection hblk with hw hos
      exact hos.symm
  · intro hlen
    rcases hblk : picnic2Block sq state h2 with ⟨w, os⟩
    rw [hblk] at hlen
    dsimp only at hlen ⊢
    unfold picnic2Block at hblk
    split at hblk
    · split at hblk
      · simp only at hblk
        split at hblk
        · injection hblk with hw hos
          subst hw
          exact absurd hlen (by omega)
        · injection hblk with hw hos
          exact hos.symm
      · injection hblk with hw hos
        exact hos.symm
    · injection hblk with hw hos
      exact hos.symm

/-- Witness for C2 on an empty snapshot and empty histories. -/
theorem c2_warmup_gate_witness :
    (picnic1Block (fun q => q) ⟨[], []⟩ (Window.empty DIFF_WINDOW)).2 = [] ∧
    (picnic2Block (fun q => q) ⟨[], []⟩ (Window.empty DIFF_WINDOW_2)).2 = [] :=
  ⟨(c2_warmup_gate (fun q => q) ⟨[], []⟩ (Window.empty DIFF_WINDOW)
      (Window.empty DIFF_WINDOW_2)).1 (by simp [picnic1Block, Window.empty, DIFF_WINDOW, List.lookup]),
   (c2_warmup_gate (fun q => q) ⟨[], []⟩ (Window.empty DIFF_WINDOW)
      (Window.empty DIFF_WINDOW_2)).2 (by simp [picnic2Block, Window.empty, DIFF_WINDOW_2, List.lookup])⟩


/-- C3 exhibit (code bug): at `c3State`/`c3Window` the mispricing signal
fires (`diff = -5 < -threshold`), the croissant/jam/djembe legs each have
full position headroom and resting ask volume of magnitude 20 ≥
MIN_LIQUIDITY = 10, yet the block emits only the basket sell and no
component buy leg: the source compares the negative ask volume directly
against `+MIN_LIQUIDITY` (`croissant_ask_vol >= self.MIN_LIQUIDITY`), a
gate that can never pass, contradicting its own comments and the correct
`<= -MIN_LIQUIDITY` convention used by the PICNIC_BASKET2 block. -/
theorem c3_liquidity_gate_code_bug (sq : ℚ → ℚ) (hsq : sq 0 = 0) :
    (picnic1Block sq c3State c3Window).2 = [⟨"PICNIC_BASKET1", 104, -2⟩] ∧
    MIN_LIQUIDITY ≤ |(-20 : ℤ)| := by
  constructor
  · simp [picnic1Block, c3State, c3Window, List.lookup, bestBid, bestAsk,
      Window.push, DIFF_WINDOW, SIGMA_MULTIPLIER, MIN_LIQUIDITY,
      BASKET_TRADE_SIZE, posOf, listMean, pvariance, hsq]
    norm_num [hsq]
  · simp [MIN_LIQUIDITY]

/-- Witness for the C3 exhibit at a concrete square-root routine. -/
theorem c3_liquidity_gate_code_bug_witness :
    (picnic1Block (fun _ => (0 : ℚ)) c3State c3Window).2 =
      [⟨"PICNIC_BASKET1", 104, -2⟩] ∧
    MIN_LIQUIDITY ≤ |(-20 : ℤ)| :=
  c3_liquidity_gate_code_bug (fun _ => 0) rfl


theorem round1Product_fv_eq (state : TradingState) (mem : Round1Mem)
    (prod : String) (depth : OrderDepth) (e : Option (List Order))
    (mem1 : Round1Mem) (hne : prod ≠ "RAINFOREST_RESIN")
    (h : round1Product state mem prod depth = some (e, mem1)) :
    mem1.fv_resin = mem.fv_resin := by
  unfold round1Product at h
  split at h
  · rw [if_neg hne] at h
    by_cases hk : prod = "KELP"
    · rw [if_pos hk] at h
      injection h with h1
      injection h1 with he hm
      rw [← hm]
    · rw [if_neg hk] at h
      by_cases hs : prod = "SQUID_INK"
      · rw [if_pos hs] at h
        split at h
        · exact absurd h (by simp)
        · simp only at h
          split_ifs at h <;>
            (injection h with h1; injection h1 with he hm; rw [← hm])
      · rw [if_neg hs] at h
        injection h with h1
        injection h1 with he hm
        rw [← hm]
  · injection h with h1
    injection h1 with he hm
    rw [← hm]

theorem round1Product_roll_eq (state : TradingState) (mem : Round1Mem)
    (prod : String) (depth : OrderDepth) (e : Option (List Order))
    (mem1 : Round1Mem) (hne : prod ≠ "SQUID_INK")
    (h : round1Product state mem prod depth = some (e, mem1)) :
    mem1.squid_roll = mem.squid_roll := by
  unfold round1Product at h
  split at h
  · by_cases hrr : prod = "RAINFOREST_RESIN"
    · rw [if_pos hrr] at h
      injection h with h1
      injection h1 with he hm
      rw [← hm]
    · rw [if_neg hrr] at h
      by_cases hk : prod = "KELP"
      · rw [if_pos hk] at h
        injection h with h1
        injection h1 with he hm
        rw [← hm]
      · rw [if_neg hk, if_neg hne] at h
        injection h with h1
        injection h1 with he hm
        rw [← hm]
  · injection h with h1
    injection h1 with he hm
    rw [← hm]

theorem round1Product_skip (state : TradingState) (mem : Round1Mem)
    (prod : String) (depth : OrderDepth)
    (h : bestBid depth.buy_orders = none ∨ bestAsk depth.sell_orders = none) :
    round1Product state mem prod depth = some (none, mem) := by
  unfold round1Product
  rcases hb : bestBid depth.buy_orders with _ | b
  · rcases ha : bestAsk depth.sell_orders with _ | a
    · rfl
    · rfl
  · rcases ha : bestAsk depth.sell_orders with _ | a
    · rfl
    · rcases h with h | h
      · rw [hb] at h
        exact absurd h (by simp)
      · rw [ha] at h
        exact absurd h (by simp)

theorem round1Product_qty (state : TradingState) (mem : Round1Mem)
    (prod : String) (depth : OrderDepth) (os : List Order) (mem1 : Round1Mem)
    (h : round1Product state mem prod depth = some (some os, mem1))
    (o : Order) (ho : o ∈ os)
    (hpos : |posOf state prod| ≤ round1Limit prod) :
    |posOf state prod + o.quantity| ≤ round1Limit prod := by
  rw [abs_le] at hpos ⊢
  have hpass : (0 : ℤ) < PASSIVE_QTY := by norm_num [PASSIVE_QTY]
  have hsq5 : (0 : ℤ) < SQUID_TRADE_SIZE := by norm_num [SQUID_TRADE_SIZE]
  unfold round1Product at h
  split at h
  · rename_i bid_px bid_qty ask_px ask_qty hb ha
    by_cases hr : prod = "RAINFOREST_RESIN"
    · rw [if_pos hr] at h
      simp only at h
      injection h with h1
      injection h1 with he hm
      injection he with he
      subst he
      simp only [List.mem_append] at ho
      rcases ho with ((hcb | hcs) | hpb) | hpa
      · split_ifs at hcb with hc hq
        · simp only [List.mem_singleton] at hcb
          subst hcb
          dsimp only
          have hmin := min_le_right (-ask_qty) (round1Limit prod - posOf state prod)
          constructor <;> omega
        · simp at hcb
        · simp at hcb
      · split_ifs at hcs with hc hq
        · simp only [List.mem_singleton] at hcs
          subst hcs
          dsimp only
          have hmin := min_le_right bid_qty (round1Limit prod + posOf state prod)
          constructor <;> omega
        · simp at hcs
        · simp at hcs
      · split_ifs at hpb with hc
        · simp only [List.mem_singleton] at hpb
          subst hpb
          dsimp only
          have hmin := min_le_right PASSIVE_QTY (round1Limit prod - posOf state prod)
          have hmin2 : 0 < min PASSIVE_QTY (round1Limit prod - posOf state prod) :=
            lt_min hpass hc
          constructor <;> omega
        · simp at hpb
      · split_ifs at hpa with hc
        · simp only [List.mem_singleton] at hpa
          subst hpa
          dsimp only
          have hmin := min_le_right PASSIVE_QTY (round1Limit prod + posOf state prod)
          have hmin2 : 0 < min PASSIVE_QTY (round1Limit prod + posOf state prod) :=
            lt_min hpass hc
          constructor <;> omega
        · simp at hpa
    · rw [if_neg hr] at h
      by_cases hk : prod = "KELP"
      · rw [if_pos hk] at h
        injection h with h1
        injection h1 with he hm
        exact absurd he (by simp)
      · rw [if_neg hk] at h
        by_cases hs : prod = "SQUID_INK"
        · rw [if_pos hs] at h
          split at h
          · exact absurd h (by simp)
          · simp only at h
            split_ifs at h with hp hw hd1 hd2
            · injection h with h1
              injection h1 with he hm
              exact absurd he (by simp)
            · injection h with h1
              injection h1 with he hm
              exact absurd he (by simp)
            · injection h with h1
              injection h1 with he hm
              injection he with he
              subst he
              simp only [List.mem_singleton] at ho
              subst ho
              dsimp only
              have hmin := min_le_right SQUID_TRADE_SIZE
                (round1Limit prod + posOf state prod)
              have hmin2 : 0 < min SQUID_TRADE_SIZE
                  (round1Limit prod + posOf state prod) :=
                lt_min hsq5 (by omega)
              constructor <;> omega
            · injection h with h1
              injection h1 with he hm
              injection he with he
              subst he
              simp only [List.mem_singleton] at ho
              subst ho
              dsimp only
              have hmin := min_le_right SQUID_TRADE_SIZE
                (round1Limit prod - posOf state prod)
              have hmin2 : 0 < min SQUID_TRADE_SIZE
                  (round1Limit prod - posOf state prod) :=
                lt_min hsq5 (by omega)
              constructor <;> omega
            · injection h with h1
              injection h1 with he hm
              injection he with he
              subst he
              simp at ho
        · rw [if_neg hs] at h
          injection h with h1
          injection h1 with he hm
          injection he with he
          subst he
          simp at ho
  · injection h with h1
    injection h1 with he hm
    exact absurd he (by simp)


theorem round1Loop_orders (state : TradingState) :
    ∀ (l : List (String × OrderDepth)) (mem res memF),
    round1Loop state l mem = some (res, memF) →
    ∀ p os, (p, os) ∈ res →
    ∃ d mem0 mem1, round1Product state mem0 p d = some (some os, mem1) := by
  intro l
  induction l with
  | nil =>
    intro mem res memF h p os hmem
    rw [round1Loop] at h
    injection h with h1
    injection h1 with hres hmf
    rw [← hres] at hmem
    simp at hmem
  | cons hd tl ih =>
    obtain ⟨p0, d0⟩ := hd
    intro mem res memF h p os hmem
    rw [round1Loop] at h
    rcases hp : round1Product state mem p0 d0 with _ | ⟨entry, mem1⟩
    · rw [hp] at h
      exact absurd h (by simp)
    · rw [hp] at h
      simp only at h
      rcases hl : round1Loop state tl mem1 with _ | ⟨res2, memF2⟩
      · rw [hl] at h
        exact absurd h (by simp)
      · rw [hl] at h
        simp only at h
        rcases entry with _ | os0
        · injection h with h1
          injection h1 with hres hmf
          rw [← hres] at hmem
          exact ih mem1 res2 memF2 (by rw [hl, hmf]) p os hmem
        · injection h with h1
          injection h1 with hres hmf
          rw [← hres] at hmem
          rcases List.mem_cons.mp hmem with heq | htl
          · injection heq with hps hoss
            subst hps
            subst hoss
            exact ⟨d0, mem, mem1, hp⟩
          · exact ih mem1 res2 memF2 (by rw [hl, hmf]) p os htl

theorem round1Loop_fv (state : TradingState) :
    ∀ (l : List (String × OrderDepth)) (mem res memF),
    (∀ d, ("RAINFOREST_RESIN", d) ∈ l →
      bestBid d.buy_orders = none ∨ bestAsk d.sell_orders = none) →
    round1Loop state l mem = some (res, memF) →
    memF.fv_resin = mem.fv_resin := by
  intro l
  induction l with
  | nil =>
    intro mem res memF hskip h
    rw [round1Loop] at h
    injection h with h1
    injection h1 with hres hmf
    rw [← hmf]
  | cons hd tl ih =>
    obtain ⟨p0, d0⟩ := hd
    intro mem res memF hskip h
    rw [round1Loop] at h
    rcases hp : round1Product state mem p0 d0 with _ | ⟨entry, mem1⟩
    · rw [hp] at h
      exact absurd h (by simp)
    · rw [hp] at h
      simp only at h
      rcases hl : round1Loop state tl mem1 with _ | ⟨res2, memF2⟩
      · rw [hl] at h
        exact absurd h (by simp)
      · rw [hl] at h
        simp only at h
        have hmf2 : memF2 = memF := by
          rcases entry with _ | os0
          · simp only [Option.some.injEq, Prod.mk.injEq] at h
            exact h.2
          · simp only [Option.some.injEq, Prod.mk.injEq] at h
            exact h.2
        have hstep : mem1.fv_resin = mem.fv_resin := by
          by_cases hr : p0 = "RAINFOREST_RESIN"
          · have hsk := hskip d0 (by rw [hr]; exact List.mem_cons_self _ _)
            rw [round1Product_skip state mem p0 d0 hsk] at hp
            injection hp with h1
            injection h1 with he hm
            rw [← hm]
          · exact round1Product_fv_eq state mem p0 d0 entry mem1 hr hp
        have htl : memF2.fv_resin = mem1.fv_resin :=
          ih mem1 res2 memF2
            (fun d hd => hskip d (List.mem_cons_of_mem _ hd)) hl
        rw [← hmf2, htl, hstep]

theorem round1Loop_roll (state : TradingState) :
    ∀ (l : List (String × OrderDepth)) (mem res memF),
    (∀ d, ("SQUID_INK", d) ∈ l →
      bestBid d.buy_orders = none ∨ bestAsk d.sell_orders = none) →
    round1Loop state l mem = some (res, memF) →
    memF.squid_roll = mem.squid_roll := by
  intro l
  induction l with
  | nil =>
    intro mem res memF hskip h
    rw [round1Loop] at h
    injection h with h1
    injection h1 with hres hmf
    rw [← hmf]
  | cons hd tl ih =>
    obtain ⟨p0, d0⟩ := hd
    intro mem res memF hskip h
    rw [round1Loop] at h
    rcases hp : round1Product state mem p0 d0 with _ | ⟨entry, mem1⟩
    · rw [hp] at h
      exact absurd h (by simp)
    · rw [hp] at h
      simp only at h
      rcases hl : round1Loop state tl mem1 with _ | ⟨res2, memF2⟩
      · rw [hl] at h
        exact absurd h (by simp)
      · rw [hl] at h
        simp only at h
        have hmf2 : memF2 = memF := by
          rcases entry with _ | os0
          · simp only [Option.some.injEq, Prod.mk.injEq] at h
            exact h.2
          · simp only [Option.some.injEq, Prod.mk.injEq] at h
            exact h.2
        have hstep : mem1.squid_roll = mem.squid_roll := by
          by_cases hr : p0 = "SQUID_INK"
          · have hsk := hskip d0 (by rw [hr]; exact List.mem_cons_self _ _)
            rw [round1Product_skip state mem p0 d0 hsk] at hp
            injection hp with h1
            injection h1 with he hm
            rw [← hm]
          · exact round1Product_roll_eq state mem p0 d0 entry mem1 hr hp
        have htl : memF2.squid_roll = mem1.squid_roll :=
          ih mem1 res2 memF2
            (fun d hd => hskip d (List.mem_cons_of_mem _ hd)) hl
        rw [← hmf2, htl, hstep]

theorem round1Loop_skip_entry (state : TradingState) :
    ∀ (l : List (String × OrderDepth)) (mem res memF) (p : String),
    (∀ d, (p, d) ∈ l →
      bestBid d.buy_orders = none ∨ bestAsk d.sell_orders = none) →
    round1Loop state l mem = some (res, memF) →
    ∀ os, (p, os) ∉ res := by
  intro l
  induction l with
  | nil =>
    intro mem res memF p hskip h os
    rw [round1Loop] at h
    injection h with h1
    injection h1 with hres hmf
    rw [← hres]
    simp
  | cons hd tl ih =>
    obtain ⟨p0, d0⟩ := hd
    intro mem res memF p hskip h os
    rw [round1Loop] at h
    rcases hp : round1Product state mem p0 d0 with _ | ⟨entry, mem1⟩
    · rw [hp] at h
      exact absurd h (by simp)
    · rw [hp] at h
      simp only at h
      rcases hl : round1Loop state tl mem1 with _ | ⟨res2, memF2⟩
      · rw [hl] at h
        exact absurd h (by simp)
      · rw [hl] at h
        simp only at h
        by_cases hpp : p0 = p
        · subst hpp
          have hsk := hskip d0 (List.mem_cons_self _ _)
          rw [round1Product_skip state mem p0 d0 hsk] at hp
          injection hp with h1
          injection h1 with he hm
          rw [← he] at h
          injection h with h1
          injection h1 with hres hmf
          rw [← hres]
          exact ih mem1 res2 memF2 p0
            (fun d hd => hskip d (List.mem_cons_of_mem _ hd)) hl os
        · rcases entry with _ | os0
          · injection h with h1
            injection h1 with hres hmf
            rw [← hres]
            exact ih mem1 res2 memF2 p
              (fun d hd => hskip d (List.mem_cons_of_mem _ hd)) hl os
          · injection h with h1
            injection h1 with hres hmf
            rw [← hres]
            intro hmem
            rcases List.mem_cons.mp hmem with heq | htl
            · injection heq with hps hoss
              exact hpp hps.symm
            · exact ih mem1 res2 memF2 p
                (fun d hd => hskip d (List.mem_cons_of_mem _ hd)) hl os htl


theorem resinFv_seed (mem : Round1Mem) (mid : ℚ) (h : mem.fv_resin = none) :
    resinFv mem mid = mid := by
  unfold resinFv RESIN_ALPHA
  rw [h]
  simp only [Option.getD]
  ring

theorem round1Product_resin_fv (state : TradingState) (mem : Round1Mem)
    (depth : OrderDepth) (b bq a aq : ℤ) (e : Option (List Order))
    (mem1 : Round1Mem)
    (hb : bestBid depth.buy_orders = some (b, bq))
    (ha : bestAsk depth.sell_orders = some (a, aq))
    (h : round1Product state mem "RAINFOREST_RESIN" depth = some (e, mem1)) :
    mem1.fv_resin = some (resinFv mem (((b : ℚ) + (a : ℚ)) / 2)) := by
  unfold round1Product at h
  rw [hb, ha] at h
  simp only at h
  rw [if_pos trivial] at h
  injection h with h1
  injection h1 with he hm
  rw [← hm]

theorem lookup_of_mem_nodup :
    ∀ (l : List (String × OrderDepth)), (l.map Prod.fst).Nodup →
    ∀ (p : String) (d : OrderDepth), (p, d) ∈ l → l.lookup p = some d := by
  intro l
  induction l with
  | nil =>
    intro _ p d hmem
    simp at hmem
  | cons hd tl ih =>
    obtain ⟨q, e⟩ := hd
    intro hnd p d hmem
    have hnd2 : q ∉ (tl.map Prod.fst) ∧ (tl.map Prod.fst).Nodup := by
      rw [List.map_cons, List.nodup_cons] at hnd
      exact hnd
    rcases List.mem_cons.mp hmem with heq | htl
    · injection heq with hpq hde
      subst hpq
      subst hde
      simp [List.lookup]
    · have hpq : p ≠ q := by
        intro hcontra
        subst hcontra
        exact hnd2.1 (List.mem_map.mpr ⟨(p, d), htl, rfl⟩)
      have hbeq : (p == q) = false := beq_false_of_ne hpq
      simp only [List.lookup, hbeq]
      exact ih hnd2.2 p d htl

theorem round1Loop_fv_seed (state : TradingState) :
    ∀ (l : List (String × OrderDepth)) (mem res memF d) (b bq a aq : ℤ),
    (l.map Prod.fst).Nodup →
    l.lookup "RAINFOREST_RESIN" = some d →
    bestBid d.buy_orders = some (b, bq) →
    bestAsk d.sell_orders = some (a, aq) →
    mem.fv_resin = none →
    round1Loop state l mem = some (res, memF) →
    memF.fv_resin = some (((b : ℚ) + (a : ℚ)) / 2) := by
  intro l
  induction l with
  | nil =>
    intro mem res memF d b bq a aq hnd hd hb ha hfv h
    simp [List.lookup] at hd
  | cons hd0 tl ih =>
    obtain ⟨p0, d0⟩ := hd0
    intro mem res memF d b bq a aq hnd hd hb ha hfv h
    have hnd2 : p0 ∉ (tl.map Prod.fst) ∧ (tl.map Prod.fst).Nodup := by
      rw [List.map_cons, List.nodup_cons] at hnd
      exact hnd
    rw [round1Loop] at h
    rcases hp : round1Product state mem p0 d0 with _ | ⟨entry, mem1⟩
    · rw [hp] at h
      exact absurd h (by simp)
    · rw [hp] at h
      simp only at h
      rcases hl : round1Loop state tl mem1 with _ | ⟨res2, memF2⟩
      · rw [hl] at h
        exact absurd h (by simp)
      · rw [hl] at h
        simp only at h
        have hmf2 : memF2 = memF := by
          rcases entry with _ | os0
          · simp only [Option.some.injEq, Prod.mk.injEq] at h
            exact h.2
          · simp only [Option.some.injEq, Prod.mk.injEq] at h
            exact h.2
        by_cases hr : p0 = "RAINFOREST_RESIN"
        · have hbeq : ("RAINFOREST_RESIN" == p0) = true := by
            rw [hr]
            exact beq_self_eq_true _
          rw [List.lookup, hbeq] at hd
          injection hd with hdd
          subst hdd
          have hseed : mem1.fv_resin =
              some (resinFv mem (((b : ℚ) + (a : ℚ)) / 2)) := by
            rw [hr] at hp
            exact round1Product_resin_fv state mem d0 b bq a aq entry mem1
              hb ha hp
          rw [resinFv_seed mem _ hfv] at hseed
          have hpres : memF2.fv_resin = mem1.fv_resin := by
            refine round1Loop_fv state tl mem1 res2 memF2 ?_ hl
            intro d1 hd1
            exfalso
            apply hnd2.1
            exact List.mem_map.mpr ⟨("RAINFOREST_RESIN", d1), hd1, by rw [hr]⟩
          rw [← hmf2, hpres, hseed]
        · have hbeq : ("RAINFOREST_RESIN" == p0) = false :=
            beq_false_of_ne (fun hcontra => hr hcontra.symm)
          rw [List.lookup, hbeq] at hd
          have hfv1 : mem1.fv_resin = none := by
            rw [round1Product_fv_eq state mem p0 d0 entry mem1 hr hp, hfv]
          rw [← hmf2]
          exact ih mem1 res2 memF2 d b bq a aq hnd2.2 hd hb ha hfv1 hl


/-- C1 counterexample: at `c1State` (position -50, within the limit) the one
tick emits intents totalling +112 for RAINFOREST_RESIN, so
`|position + Σ emitted quantities| = 62 > 50`: the generated intent set can
push the net position beyond the configured limit. -/
theorem c1_counterexample :
    round1Run c1State ⟨none, none⟩ =
      some ([("RAINFOREST_RESIN", c1Orders)], ⟨some 105, none⟩) ∧
    ¬(|posOf c1State "RAINFOREST_RESIN" + (c1Orders.map Order.quantity).sum| ≤
        round1Limit "RAINFOREST_RESIN") ∧
    |posOf c1State "RAINFOREST_RESIN"| ≤ round1Limit "RAINFOREST_RESIN" := by
  refine ⟨?_, ?_, ?_⟩
  · simp [round1Run, round1Loop, round1Product, c1State, c1Orders, bestBid,
      bestAsk, posOf, round1Limit, resinFv, resinSkew, pyint, RESIN_ALPHA,
      RESIN_EDGE, PASSIVE_QTY, INV_SKEW, List.lookup]
    norm_num
  · simp [c1State, c1Orders, posOf, round1Limit, List.lookup]
  · simp [c1State, posOf, round1Limit, List.lookup]

/-- C1 (amended): each individual emitted intent respects the headroom to
the position limit — for every run, every product entry and every order in
it, `|position + order quantity| ≤ limit` (given the incoming position is
within the limit).  The original claim about the summed quantities of the
whole per-tick intent set is refuted by `c1_counterexample`: the
spread-cross size and the passive clip are each capped by the same headroom
but never jointly. -/
theorem c1_per_intent_headroom (state : TradingState) (mem : Round1Mem)
    (res : List (String × List Order)) (memF : Round1Mem)
    (p : String) (os : List Order) (o : Order)
    (hrun : round1Run state mem = some (res, memF))
    (hres : (p, os) ∈ res) (ho : o ∈ os)
    (hpos : |posOf state p| ≤ round1Limit p) :
    |posOf state p + o.quantity| ≤ round1Limit p := by
  obtain ⟨d, mem0, mem1, hprod⟩ :=
    round1Loop_orders state state.order_depths mem res memF hrun p os hres
  exact round1Product_qty state mem0 p d os mem1 hprod o ho hpos

/-- Witness for the amended C1 at a concrete run. -/
theorem c1_per_intent_headroom_witness :
    |posOf c1WState "RAINFOREST_RESIN" +
        (⟨"RAINFOREST_RESIN", 99, 12⟩ : Order).quantity| ≤
      round1Limit "RAINFOREST_RESIN" := by
  refine c1_per_intent_headroom c1WState ⟨none, none⟩
    [("RAINFOREST_RESIN",
      [⟨"RAINFOREST_RESIN", 99, 12⟩, ⟨"RAINFOREST_RESIN", 101, -12⟩])]
    ⟨some 100, none⟩ "RAINFOREST_RESIN"
    [⟨"RAINFOREST_RESIN", 99, 12⟩, ⟨"RAINFOREST_RESIN", 101, -12⟩]
    ⟨"RAINFOREST_RESIN", 99, 12⟩ ?_ (by simp) (by simp) ?_
  · simp [round1Run, round1Loop, round1Product, c1WState, bestBid, bestAsk,
      posOf, round1Limit, resinFv, resinSkew, pyint, RESIN_ALPHA, RESIN_EDGE,
      PASSIVE_QTY, INV_SKEW, List.lookup]
    norm_num
  · simp [c1WState, posOf, round1Limit, List.lookup]

/-- C4 counterexample: on `c4State` with stored fair value 100 the code
computes `fv = 100.8` and posts the passive quotes at prices 99 and 101
(Python `int()` truncation), whereas rounding `fv - edge - skew = 99.8` to
the nearest tick with ties down gives 100 ≠ 99. -/
theorem c4_counterexample :
    round1Run c4State ⟨some 100, none⟩ =
      some ([("RAINFOREST_RESIN",
              [⟨"RAINFOREST_RESIN", 99, 12⟩, ⟨"RAINFOREST_RESIN", 101, -12⟩])],
            ⟨some (504 / 5), none⟩) ∧
    roundHalfDown
      (resinFv ⟨some 100, none⟩ ((((101 : ℤ) : ℚ) + ((115 : ℤ) : ℚ)) / 2) -
        RESIN_EDGE -
        resinSkew (posOf c4State "RAINFOREST_RESIN")
          (round1Limit "RAINFOREST_RESIN")) = 100 ∧
    (99 : ℤ) ≠ 100 := by
  refine ⟨?_, ?_, by norm_num⟩
  · simp [round1Run, round1Loop, round1Product, c4State, bestBid, bestAsk,
      posOf, round1Limit, resinFv, resinSkew, pyint, RESIN_ALPHA, RESIN_EDGE,
      PASSIVE_QTY, INV_SKEW, List.lookup]
    norm_num
  · rw [roundHalfDown, Int.ceil_eq_iff]
    constructor <;>
      norm_num [resinFv, resinSkew, posOf, round1Limit, c4State, RESIN_ALPHA,
        RESIN_EDGE, INV_SKEW, List.lookup]


/-- C4 (amended): the quote targets are computed by Python `int()`
truncation of `fv - edge - skew` and `fv + edge - skew`; when those values
are nonnegative (every realistic book) this is the floor — the
design-note convention of floor-toward-computed-value — and not
round-to-nearest (refuted by `c4_counterexample`).  Whenever both passive
sides have headroom, the emitted order list ends with the passive bid at
`⌊fv - edge - skew⌋` and the passive ask at `⌊fv + edge - skew⌋`, each
sized `min PASSIVE_QTY headroom`, preceded only by the spread-cross
intents. -/
theorem c4_floor_quotes (state : TradingState) (mem : Round1Mem)
    (depth : OrderDepth) (b bq a aq : ℤ) (os : List Order) (mem1 : Round1Mem)
    (hb : bestBid depth.buy_orders = some (b, bq))
    (ha : bestAsk depth.sell_orders = some (a, aq))
    (hrun : round1Product state mem "RAINFOREST_RESIN" depth =
      some (some os, mem1))
    (hnn : 0 ≤ resinFv mem (((b : ℚ) + (a : ℚ)) / 2) - RESIN_EDGE -
      resinSkew (posOf state "RAINFOREST_RESIN")
        (round1Limit "RAINFOREST_RESIN"))
    (hlo : -(round1Limit "RAINFOREST_RESIN") < posOf state "RAINFOREST_RESIN")
    (hhi : posOf state "RAINFOREST_RESIN" < round1Limit "RAINFOREST_RESIN") :
    ∃ cross,
      os = cross ++
        [⟨"RAINFOREST_RESIN",
          ⌊resinFv mem (((b : ℚ) + (a : ℚ)) / 2) - RESIN_EDGE -
            resinSkew (posOf state "RAINFOREST_RESIN")
              (round1Limit "RAINFOREST_RESIN")⌋,
          min PASSIVE_QTY
            (round1Limit "RAINFOREST_RESIN" -
              posOf state "RAINFOREST_RESIN")⟩,
         ⟨"RAINFOREST_RESIN",
          ⌊resinFv mem (((b : ℚ) + (a : ℚ)) / 2) + RESIN_EDGE -
            resinSkew (posOf state "RAINFOREST_RESIN")
              (round1Limit "RAINFOREST_RESIN")⌋,
          -(min PASSIVE_QTY
            (round1Limit "RAINFOREST_RESIN" +
              posOf state "RAINFOREST_RESIN"))⟩] := by
  have hnn2 : 0 ≤ resinFv mem (((b : ℚ) + (a : ℚ)) / 2) + RESIN_EDGE -
      resinSkew (posOf state "RAINFOREST_RESIN")
        (round1Limit "RAINFOREST_RESIN") := by
    have : (0 : ℚ) ≤ RESIN_EDGE := by norm_num [RESIN_EDGE]
    linarith
  unfold round1Product at hrun
  rw [hb, ha] at hrun
  simp only at hrun
  rw [if_pos trivial] at hrun
  injection hrun with h1
  injection h1 with he hm
  injection he with he
  rw [if_pos (by omega : (0 : ℤ) <
    round1Limit "RAINFOREST_RESIN" - posOf state "RAINFOREST_RESIN")] at he
  rw [if_pos (by omega : (0 : ℤ) <
    round1Limit "RAINFOREST_RESIN" + posOf state "RAINFOREST_RESIN")] at he
  rw [pyint, if_pos hnn, pyint, if_pos hnn2] at he
  rw [List.append_assoc] at he
  exact ⟨_, he.symm⟩

/-- Witness for the amended C4 at a concrete book (fv = 100, targets 99 and
101, no crossing). -/
theorem c4_floor_quotes_witness :
    ∃ cross,
      [(⟨"RAINFOREST_RESIN", 99, 12⟩ : Order), ⟨"RAINFOREST_RESIN", 101, -12⟩] =
        cross ++
        [⟨"RAINFOREST_RESIN",
          ⌊resinFv ⟨none, none⟩ ((((99 : ℤ) : ℚ) + ((101 : ℤ) : ℚ)) / 2) -
            RESIN_EDGE -
            resinSkew (posOf c1WState "RAINFOREST_RESIN")
              (round1Limit "RAINFOREST_RESIN")⌋,
          min PASSIVE_QTY
            (round1Limit "RAINFOREST_RESIN" -
              posOf c1WState "RAINFOREST_RESIN")⟩,
         ⟨"RAINFOREST_RESIN",
          ⌊resinFv ⟨none, none⟩ ((((99 : ℤ) : ℚ) + ((101 : ℤ) : ℚ)) / 2) +
            RESIN_EDGE -
            resinSkew (posOf c1WState "RAINFOREST_RESIN")
              (round1Limit "RAINFOREST_RESIN")⌋,
          -(min PASSIVE_QTY
            (round1Limit "RAINFOREST_RESIN" +
              posOf c1WState "RAINFOREST_RESIN"))⟩] := by
  refine c4_floor_quotes c1WState ⟨none, none⟩ ⟨[(99, 5)], [(101, -5)]⟩
    99 5 101 (-5)
    [⟨"RAINFOREST_RESIN", 99, 12⟩, ⟨"RAINFOREST_RESIN", 101, -12⟩]
    ⟨some 100, none⟩ (by rfl) (by rfl) ?_ ?_ ?_ ?_
  · simp [round1Product, c1WState, bestBid, bestAsk, posOf, round1Limit,
      resinFv, resinSkew, pyint, RESIN_ALPHA, RESIN_EDGE, PASSIVE_QTY,
      INV_SKEW, List.lookup]
    norm_num
  · norm_num [resinFv, resinSkew, posOf, round1Limit, c1WState, RESIN_ALPHA,
      RESIN_EDGE, INV_SKEW, List.lookup]
  · norm_num [posOf, round1Limit, c1WState, List.lookup]
  · norm_num [posOf, round1Limit, c1WState, List.lookup]


/-- C6: when a product (RAINFOREST_RESIN, the EMA-quoted product of
`round_1.py`) has no stored fair value yet, one run over a snapshot whose
resin book is two-sided stores exactly the observed mid-price as the fair
value: `α·m + (1-α)·m = m`, no smoothing artifact on the first tick. -/
theorem c6_ema_seeding (state : TradingState) (mem : Round1Mem)
    (res : List (String × List Order)) (memF : Round1Mem) (d : OrderDepth)
    (b bq a aq : ℤ)
    (hkeys : (state.order_depths.map Prod.fst).Nodup)
    (hd : state.order_depths.lookup "RAINFOREST_RESIN" = some d)
    (hb : bestBid d.buy_orders = some (b, bq))
    (ha : bestAsk d.sell_orders = some (a, aq))
    (hfv : mem.fv_resin = none)
    (hrun : round1Run state mem = some (res, memF)) :
    memF.fv_resin = some (((b : ℚ) + (a : ℚ)) / 2) :=
  round1Loop_fv_seed state state.order_depths mem res memF d b bq a aq
    hkeys hd hb ha hfv hrun

/-- Witness for C6: seeding at mid 100 from the book 99/101. -/
theorem c6_ema_seeding_witness :
    (⟨some 100, none⟩ : Round1Mem).fv_resin =
      some ((((99 : ℤ) : ℚ) + ((101 : ℤ) : ℚ)) / 2) := by
  refine c6_ema_seeding c1WState ⟨none, none⟩
    [("RAINFOREST_RESIN",
      [⟨"RAINFOREST_RESIN", 99, 12⟩, ⟨"RAINFOREST_RESIN", 101, -12⟩])]
    ⟨some 100, none⟩ ⟨[(99, 5)], [(101, -5)]⟩ 99 5 101 (-5)
    (by simp [c1WState]) (by simp [c1WState, List.lookup]) (by rfl) (by rfl)
    (by rfl) ?_
  simp [round1Run, round1Loop, round1Product, c1WState, bestBid, bestAsk,
    posOf, round1Limit, resinFv, resinSkew, pyint, RESIN_ALPHA, RESIN_EDGE,
    PASSIVE_QTY, INV_SKEW, List.lookup]
  norm_num

/-- C8 counterexample: the one-sided skip does not extend to every product.
In `round_3.py` the voucher loop gates each side independently
(`v_ask is not None` for buys, `v_bid is not None` for sells), so on
`c8State3` the voucher whose ask side is EMPTY still receives a sell intent
`Order(voucher, 5, -10)` against its resting bid (rock average 9001 is far
below the strike 9500, so the fair value is 0 and the bid at 5 clears the
sell trigger; the history has one element, so the volatility is 0 for any
square-root routine, and `fun q => q` instantiates it). -/
theorem c8_voucher_one_sided_counterexample :
    (round3Run (fun q => q) c8State3 ⟨none⟩).1 =
      [("VOLCANIC_ROCK_VOUCHER_9500",
        [⟨"VOLCANIC_ROCK_VOUCHER_9500", 5, -10⟩])] ∧
    c8State3.order_depths.lookup "VOLCANIC_ROCK_VOUCHER_9500" =
      some ⟨[(5, 10)], []⟩ ∧
    (⟨[(5, 10)], []⟩ : OrderDepth).sell_orders = [] := by
  refine ⟨?_, by simp [c8State3, List.lookup], rfl⟩
  simp [round3Run, c8State3, strikes, voucherOrders, voucherFair,
    rockVolatility, VOL_MULTIPLIER, ROUND3_WINDOW, bestBid, bestAsk, posOf,
    listMean, List.lookup, List.foldl]
  norm_num

/-- C8 (amended): the one-sided skip holds for every product of
`round_1.py` — no results entry is recorded for a one-sided product and its
stored state (the resin fair value, the squid rolling window) is left
unchanged — and for the underlying VOLCANIC_ROCK of `round_3.py`: a
one-sided rock book yields no orders at all and leaves the stored rock
mid-price history unchanged.  It does not hold for the `round_3.py`
vouchers, whose two sides are gated independently
(`c8_voucher_one_sided_counterexample`). -/
theorem c8_empty_side_skip :
    (∀ (state : TradingState) (mem : Round1Mem) res memF (p : String)
        (d : OrderDepth),
      (state.order_depths.map Prod.fst).Nodup →
      state.order_depths.lookup p = some d →
      d.buy_orders = [] ∨ d.sell_orders = [] →
      round1Run state mem = some (res, memF) →
      (∀ os, (p, os) ∉ res) ∧
      (p = "RAINFOREST_RESIN" → memF.fv_resin = mem.fv_resin) ∧
      (p = "SQUID_INK" → memF.squid_roll = mem.squid_roll)) ∧
    (∀ (sq : ℚ → ℚ) (state : TradingState) (mem : Round3Mem) (d : OrderDepth),
      state.order_depths.lookup "VOLCANIC_ROCK" = some d →
      d.buy_orders = [] ∨ d.sell_orders = [] →
      (round3Run sq state mem).1 = [] ∧
      (round3Run sq state mem).2.rock_prices.getD [] =
        mem.rock_prices.getD []) := by
  constructor
  · intro state mem res memF p d hkeys hlookup hside hrun
    have hocc : ∀ d1, (p, d1) ∈ state.order_depths →
        bestBid d1.buy_orders = none ∨ bestAsk d1.sell_orders = none := by
      intro d1 hd1
      have hl1 := lookup_of_mem_nodup state.order_depths hkeys p d1 hd1
      rw [hlookup] at hl1
      injection hl1 with hdd
      subst hdd
      rcases hside with hside | hside
      · left
        rw [hside]
        rfl
      · right
        rw [hside]
        rfl
    refine ⟨round1Loop_skip_entry state state.order_depths mem res memF p
      hocc hrun, fun hp => ?_, fun hp => ?_⟩
    · subst hp
      exact round1Loop_fv state state.order_depths mem res memF hocc hrun
    · subst hp
      exact round1Loop_roll state state.order_depths mem res memF hocc hrun
  · intro sq state mem d hlookup hside
    unfold round3Run
    rw [hlookup]
    simp only
    rcases hside with hside | hside
    · have hb : bestBid d.buy_orders = none := by
        rw [hside]
        rfl
      rw [hb]
      rcases ha : bestAsk d.sell_orders with _ | apair
      · exact ⟨rfl, rfl⟩
      · exact ⟨rfl, rfl⟩
    · have ha : bestAsk d.sell_orders = none := by
        rw [hside]
        rfl
      rw [ha]
      rcases hb : bestBid d.buy_orders with _ | bpair
      · exact ⟨rfl, rfl⟩
      · exact ⟨rfl, rfl⟩

/-- Witness for C8: a resin book with an empty bid side, and a rock book
with an empty bid side. -/
theorem c8_empty_side_skip_witness :
    ((∀ os, ("RAINFOREST_RESIN", os) ∉ ([] : List (String × List Order))) ∧
     ("RAINFOREST_RESIN" = "RAINFOREST_RESIN" →
       (⟨some 3, none⟩ : Round1Mem).fv_resin =
         (⟨some 3, none⟩ : Round1Mem).fv_resin) ∧
     ("RAINFOREST_RESIN" = "SQUID_INK" →
       (⟨some 3, none⟩ : Round1Mem).squid_roll =
         (⟨some 3, none⟩ : Round1Mem).squid_roll)) ∧
    ((round3Run (fun q => q)
        ⟨[("VOLCANIC_ROCK", ⟨[], [(7, -5)]⟩)], []⟩ ⟨none⟩).1 = [] ∧
     (round3Run (fun q => q)
        ⟨[("VOLCANIC_ROCK", ⟨[], [(7, -5)]⟩)], []⟩ ⟨none⟩).2.rock_prices.getD
          [] = (⟨none⟩ : Round3Mem).rock_prices.getD []) :=
  ⟨c8_empty_side_skip.1 ⟨[("RAINFOREST_RESIN", ⟨[], [(5, -5)]⟩)], []⟩
    ⟨some 3, none⟩ [] ⟨some 3, none⟩ "RAINFOREST_RESIN" ⟨[], [(5, -5)]⟩
    (by simp) (by simp [List.lookup]) (Or.inl rfl) rfl,
   c8_empty_side_skip.2 (fun q => q)
    ⟨[("VOLCANIC_ROCK", ⟨[], [(7, -5)]⟩)], []⟩ ⟨none⟩ ⟨[], [(7, -5)]⟩
    (by simp [List.lookup]) (Or.inl rfl)⟩

end IMC
